import Mathlib

/-!
Shallow embedding of the single-writer event-sourced server (src/unnamed/part_000).

The functional core (StateChange / StateView / StateMachine tables, `reduce`,
`produce`, `consume`, `query`, `commit`, `rollback`), the recovery driver, the
LSS writer (`physicalAppend` and its orderId counter) and the transaction
coordinator (`withSingleWriterMutex`) are translated into pure Lean functions.

Modelling decisions, all taken from the source:
* Projection states are typed records mirroring the JS objects.  Insertion-ordered
  JS objects keyed by dynamic strings become association lists whose `setA`
  preserves the position of an existing key and appends a new one, exactly like
  `{...state, [key]: value}`.
* The mutual recursion `produce` -> trigger -> `produce` of the state-machine
  fixpoint is modelled with a fuel parameter (the JS call stack); running out of
  fuel stands for the unbounded recursion (stack overflow) of the source.
* `query` walks the live `stateView` object; we mirror it with a JSON-like `Val`
  tree.  Own (data) properties are modelled; prototype-inherited properties of
  arrays/strings/sets (such as `length`) are not part of the projection data and
  are not modelled.
* `parseInt(event.data.subscriptionId.split('-')[1])` is modelled by parsing the
  digits after the first dash; the NaN branch (malformed id), which no reachable
  event produces, leaves the counter unchanged.
* `physicalAppend` on an empty list builds an `INSERT ... VALUES` statement with
  zero tuples, which the database rejects; the model returns a storage error in
  that case, and assigns `++currentOrderId` per event otherwise.
-/

namespace SWDemo

/-- Events of the closed vocabulary used by the reducer tables of the source
(plus `other` for event types no reducer matches, e.g. `LSS.Initialized`). -/
inductive Event where
  | subscriptionCreated (subscriptionId plan createdBy : String)
  | membersAssignmentStarted (subscriptionId : String) (members : List String)
  | memberAssignedToSubscription (subscriptionId memberId : String)
  | failedToAssignMemberToSubscription (subscriptionId memberId : String)
  | memberAssignmentStarted (memberId : String)
  | emailSucceeded (notificationId : Nat)
  | emailFailed (notificationId : Nat)
  | other (type : String)
deriving DecidableEq

/-- Commands: `type` selects the StateChange entry; `unknown` stands for a type
with no matching entry (the source then throws a TypeError). -/
inductive Command where
  | subscriptionCreate (plan createdBy : String)
  | subscriptionAssignMembers (subscriptionId : String) (members : List String)
  | unknown (type : String)
deriving DecidableEq

/-- Errors of the fueled core: an unknown command type throws in the source;
`noFuel` models the unbounded trigger recursion (stack overflow). -/
inductive CoreErr where
  | unknownCommand
  | noFuel
deriving DecidableEq

/-- Association-list lookup, mirroring own-property access `state[key]`. -/
def lookupA {α : Type} (k : String) : List (String × α) → Option α
  | [] => none
  | (k', v) :: rest => if k' = k then some v else lookupA k rest

/-- Association-list update mirroring `{...state, [key]: value}`: an existing
key keeps its position, a new key is appended. -/
def setA {α : Type} (k : String) (v : α) : List (String × α) → List (String × α)
  | [] => [(k, v)]
  | (k', v') :: rest => if k' = k then (k, v) :: rest else (k', v') :: setA k v rest

/-- JS `new Set(list)`: deduplicate keeping the first occurrence, in order. -/
def jsSetOf (l : List String) : List String :=
  l.foldl (fun acc m => if m ∈ acc then acc else acc ++ [m]) []

/-- Entry of the `Subscription.List` ViewState. -/
structure SubEntry where
  plan : String
  createdBy : String
  members : List String
deriving DecidableEq

/-- Entry of the `Assignment.Tracker` ViewState (`pending` is a JS Set,
modelled as its insertion-ordered duplicate-free element list). -/
structure Tracker where
  pending : List String
  completed : List String
  failed : List String
deriving DecidableEq

/-- One notification of the `Emails.To.Send` ViewState. -/
structure EmailEntry where
  text : String
  notificationId : Nat
  attempt : Nat
deriving DecidableEq

/-- State of the `Emails.To.Send` ViewState. -/
structure EmailsState where
  nextId : Nat
  list : List EmailEntry
deriving DecidableEq

/-- State of the `Subscription.Create` ChangeState. -/
structure SubCreateState where
  nextId : Nat
deriving DecidableEq

/-- All projections.  The `Subscription.Assign.Members` ChangeState is the
constant empty object with an empty reducer table in the source (never read,
never written), so it carries no field here. -/
structure Projections where
  subCreate : SubCreateState
  subList : List (String × SubEntry)
  tracker : List (String × Tracker)
  emails : EmailsState
deriving DecidableEq

/-- Pre-change snapshot map (`currentState` in the source): a deep copy of a
projection taken the first time a reducer touches it in the current
transaction. -/
structure Snapshots where
  subCreate : Option SubCreateState
  subList : Option (List (String × SubEntry))
  tracker : Option (List (String × Tracker))
  emails : Option EmailsState
deriving DecidableEq

/-- Empty snapshot map. -/
def Snapshots.empty : Snapshots := ⟨none, none, none, none⟩

/-- Dirty-view marker set (`stateMachine` object in the source): one flag per
ViewState viewId. -/
structure DirtySet where
  subList : Bool
  tracker : Bool
  emails : Bool
deriving DecidableEq

/-- No markers. -/
def DirtySet.empty : DirtySet := ⟨false, false, false⟩

/-- All three ViewStates marked. -/
def DirtySet.all : DirtySet := ⟨true, true, true⟩

/-- Full state owned by the functional core. -/
structure CoreState where
  proj : Projections
  snaps : Snapshots
  dirty : DirtySet
  tx : List Event
deriving DecidableEq

/-- Initial projections, from the `initialState` fields of the source tables. -/
def initProjections : Projections :=
  { subCreate := { nextId := 1 }
    subList := []
    tracker := []
    emails := { nextId := 1, list := [] } }

/-- Freshly constructed core: cloned initial states, empty transaction buffer,
empty snapshot map, empty dirty set. -/
def initCore : CoreState :=
  { proj := initProjections, snaps := Snapshots.empty
    dirty := DirtySet.empty, tx := [] }

/-- Characters of a split segment: everything up to the next dash. -/
def takeUntilDash : List Char → List Char
  | [] => []
  | c :: cs => if c = '-' then [] else c :: takeUntilDash cs

/-- The second segment of `s.split('-')`: the characters between the first
dash and the next one (or the end); `none` when the string has no dash. -/
def afterFirstDash : List Char → Option (List Char)
  | [] => none
  | c :: cs => if c = '-' then some (takeUntilDash cs) else afterFirstDash cs

/-- Leading decimal digits of a character list. -/
def leadDigits : List Char → List Char
  | [] => []
  | c :: cs => if c.isDigit then c :: leadDigits cs else []

/-- `parseInt` on a segment: value of the leading digits, `none` (NaN) when
there is no leading digit. -/
def parseIntLeading (cs : List Char) : Option Nat :=
  match leadDigits cs with
  | [] => none
  | ds => some (ds.foldl (fun n c => n * 10 + (c.toNat - 48)) 0)

/-- `parseInt(subscriptionId.split('-')[1])`: `none` models the NaN result of
a malformed id (no dash / no digits), which no reachable event produces. -/
def subIdNum (subscriptionId : String) : Option Nat :=
  (afterFirstDash subscriptionId.data).bind parseIntLeading

/-- Reducer table of the `Subscription.Create` ChangeState: `some f` exactly
when the table has an entry for the event's type. -/
def subCreateStep (e : Event) : Option (SubCreateState → SubCreateState) :=
  match e with
  | .subscriptionCreated subId _ _ => some (fun st =>
      match subIdNum subId with
      | some k => { nextId := max st.nextId (k + 1) }
      | none => st)
  | _ => none

/-- Reducer table of the `Subscription.List` ViewState. -/
def subListStep (e : Event) :
    Option (List (String × SubEntry) → List (String × SubEntry)) :=
  match e with
  | .subscriptionCreated subId plan createdBy => some (fun st =>
      setA subId { plan := plan, createdBy := createdBy, members := [] } st)
  | .memberAssignedToSubscription subId mId => some (fun st =>
      match lookupA subId st with
      | none => st
      | some sub => setA subId { sub with members := sub.members ++ [mId] } st)
  | _ => none

/-- Reducer table of the `Assignment.Tracker` ViewState. -/
def trackerStep (e : Event) :
    Option (List (String × Tracker) → List (String × Tracker)) :=
  match e with
  | .membersAssignmentStarted subId members => some (fun st =>
      setA subId { pending := jsSetOf members, completed := [], failed := [] } st)
  | .memberAssignedToSubscription subId mId => some (fun st =>
      match lookupA subId st with
      | none => st
      | some t => setA subId
          { t with completed := t.completed ++ [mId]
                   pending := t.pending.filter (fun x => x != mId) } st)
  | .failedToAssignMemberToSubscription subId mId => some (fun st =>
      match lookupA subId st with
      | none => st
      | some t => setA subId
          { t with failed := t.failed ++ [mId]
                   pending := t.pending.filter (fun x => x != mId) } st)
  | _ => none

/-- The `Email.Failed` reducer body: `flatMap` that increments the attempt of
the matching notification and drops it when the new attempt reaches 10. -/
def emailFailedList (notificationId : Nat) : List EmailEntry → List EmailEntry
  | [] => []
  | x :: xs =>
    (if x.notificationId ≠ notificationId then [x]
     else if x.attempt + 1 < 10 then [{ x with attempt := x.attempt + 1 }] else [])
    ++ emailFailedList notificationId xs

/-- Reducer table of the `Emails.To.Send` ViewState. -/
def emailsStep (e : Event) : Option (EmailsState → EmailsState) :=
  match e with
  | .memberAssignedToSubscription subId mId => some (fun st =>
      { nextId := st.nextId + 1
        list := st.list ++
          [{ text := "Hey " ++ mId ++ ", you were assigned to subscription " ++ subId
             notificationId := st.nextId, attempt := 0 }] })
  | .memberAssignmentStarted mId => some (fun st =>
      { nextId := st.nextId + 1
        list := st.list ++
          [{ text := "Your assignment has been started " ++ mId
             notificationId := st.nextId, attempt := 0 }] })
  | .emailSucceeded nid => some (fun st =>
      { st with list := st.list.filter (fun x => x.notificationId != nid) })
  | .emailFailed nid => some (fun st =>
      { st with list := emailFailedList nid st.list })
  | _ => none

/-- Projection component of `reduce`: fold one event into every projection
whose reducer table has an entry for its type (ViewStates first, then
ChangeStates, as in the source's two `forEach` passes). -/
def reduceProj (e : Event) (p : Projections) : Projections :=
  let p := match subListStep e with
    | some f => { p with subList := f p.subList }
    | none => p
  let p := match trackerStep e with
    | some f => { p with tracker := f p.tracker }
    | none => p
  let p := match emailsStep e with
    | some f => { p with emails := f p.emails }
    | none => p
  match subCreateStep e with
  | some f => { p with subCreate := f p.subCreate }
  | none => p

/-- Keep an existing snapshot, otherwise store a copy of the current value
(the first-touch deep copy of the source). -/
def keepFirst {α : Type} (old : α) : Option α → Option α
  | none => some old
  | some v => some v

/-- Snapshot component of `reduce`: for each projection whose reducer matched,
record its pre-event value if not already snapshotted this transaction. -/
def reduceSnaps (e : Event) (p : Projections) (sn : Snapshots) : Snapshots :=
  { subCreate := if (subCreateStep e).isSome then keepFirst p.subCreate sn.subCreate
                 else sn.subCreate
    subList := if (subListStep e).isSome then keepFirst p.subList sn.subList
               else sn.subList
    tracker := if (trackerStep e).isSome then keepFirst p.tracker sn.tracker
               else sn.tracker
    emails := if (emailsStep e).isSome then keepFirst p.emails sn.emails
              else sn.emails }

/-- `core.reduce(event)`.  Note the source sets `stateMachine[sv.viewId] = 1`
for EVERY StateView entry on every event, outside the `if (f)` guard, so all
three ViewStates are marked dirty unconditionally. -/
def reduce (e : Event) (s : CoreState) : CoreState :=
  { proj := reduceProj e s.proj
    snaps := reduceSnaps e s.proj s.snaps
    dirty := DirtySet.all
    tx := s.tx }

/-- Pairs `(subscriptionId, memberId)` the `Assignment.Tracker` state machine
iterates: every pending member of every tracker entry, in view order. -/
def pendingPairs : List (String × Tracker) → List (String × String)
  | [] => []
  | (subId, t) :: rest => t.pending.map (fun m => (subId, m)) ++ pendingPairs rest

/-- The trigger body's double loop: for each pair, `produce` a singleton
`Subscription.Assign.Members` command (re-entering the fixpoint). -/
def runTriggerLoop
    (prod : CoreState → Command → Except CoreErr (CoreState × List Event)) :
    List (String × String) → CoreState → Except CoreErr CoreState
  | [], s => .ok s
  | (subId, m) :: rest, s =>
    match prod s (.subscriptionAssignMembers subId [m]) with
    | .error err => .error err
    | .ok (s', _) => runTriggerLoop prod rest s'

/-- `trigger()`: snapshot and clear the dirty markers, then run each
StateMachine entry whose viewId is in the snapshot (the only machine is
`Assignment.Tracker`; it reads the live tracker view as of trigger entry). -/
def triggerWith
    (prod : CoreState → Command → Except CoreErr (CoreState × List Event))
    (s : CoreState) : Except CoreErr CoreState :=
  let snapshot := s.dirty
  let s' := { s with dirty := DirtySet.empty }
  if snapshot.tracker = true then
    runTriggerLoop prod (pendingPairs s'.proj.tracker) s'
  else .ok s'

/-- The `map` of the StateChange entry whose viewId equals the command type;
`none` when no entry matches (the source then throws). -/
def mapCmd (cmd : Command) (p : Projections) : Option (List Event) :=
  match cmd with
  | .subscriptionCreate plan createdBy =>
      some [.subscriptionCreated ("sub-" ++ toString p.subCreate.nextId) plan createdBy]
  | .subscriptionAssignMembers subId members =>
      some [.membersAssignmentStarted subId members]
  | .unknown _ => none

/-- One unfolding of `produce`: map the command, push the events onto the
transaction buffer, fold each through `reduce`, then run the trigger pass;
returns the events produced directly by this call. -/
def produceStep
    (prod : CoreState → Command → Except CoreErr (CoreState × List Event))
    (s : CoreState) (cmd : Command) : Except CoreErr (CoreState × List Event) :=
  match mapCmd cmd s.proj with
  | none => .error .unknownCommand
  | some events =>
    let s := { s with tx := s.tx ++ events }
    let s := events.foldl (fun st e => reduce e st) s
    match triggerWith prod s with
    | .error err => .error err
    | .ok s' => .ok (s', events)

/-- `core.produce(command)` with fuel bounding the trigger/produce recursion
depth (the JS call stack). -/
def produce : Nat → CoreState → Command → Except CoreErr (CoreState × List Event)
  | 0 => fun _ _ => .error .noFuel
  | n + 1 => produceStep (produce n)

/-- `core.consume(event)`: push the external event onto the transaction buffer,
fold it through `reduce`, run the trigger pass. -/
def consume (fuel : Nat) (s : CoreState) (e : Event) : Except CoreErr CoreState :=
  triggerWith (produce fuel) (reduce e { s with tx := s.tx ++ [e] })

/-- `core.commit()`: return the transaction buffer, clear it and the snapshot
map (the dirty markers are NOT cleared by the source's commit). -/
def commit (s : CoreState) : List Event × CoreState :=
  (s.tx, { s with tx := [], snaps := Snapshots.empty })

/-- `core.rollback()`: restore every snapshotted projection, clear the
transaction buffer and the snapshot map (dirty markers untouched). -/
def rollback (s : CoreState) : CoreState :=
  { proj := { subCreate := s.snaps.subCreate.getD s.proj.subCreate
              subList := s.snaps.subList.getD s.proj.subList
              tracker := s.snaps.tracker.getD s.proj.tracker
              emails := s.snaps.emails.getD s.proj.emails }
    snaps := Snapshots.empty
    dirty := s.dirty
    tx := [] }

/-- JSON-like value tree of the live `stateView` object, for `query`. -/
inductive Val where
  | str (s : String)
  | nat (n : Nat)
  | obj (fields : List (String × Val))
  | arr (items : List Val)
  | set (items : List String)

/-- Value of one `Subscription.List` entry. -/
def subEntryVal (e : SubEntry) : Val :=
  .obj [("plan", .str e.plan), ("createdBy", .str e.createdBy),
        ("members", .arr (e.members.map .str))]

/-- Value of the `Subscription.List` state. -/
def subListVal (l : List (String × SubEntry)) : Val :=
  .obj (l.map (fun p => (p.1, subEntryVal p.2)))

/-- Value of one `Assignment.Tracker` entry. -/
def trackerEntryVal (t : Tracker) : Val :=
  .obj [("pending", .set t.pending), ("completed", .arr (t.completed.map .str)),
        ("failed", .arr (t.failed.map .str))]

/-- Value of the `Assignment.Tracker` state. -/
def trackerVal (l : List (String × Tracker)) : Val :=
  .obj (l.map (fun p => (p.1, trackerEntryVal p.2)))

/-- Value of one notification. -/
def emailEntryVal (x : EmailEntry) : Val :=
  .obj [("text", .str x.text), ("notificationId", .nat x.notificationId),
        ("attempt", .nat x.attempt)]

/-- Value of the `Emails.To.Send` state. -/
def emailsVal (st : EmailsState) : Val :=
  .obj [("nextId", .nat st.nextId), ("list", .arr (st.list.map emailEntryVal))]

/-- The whole `stateView` tree: viewId to folded state, in table order. -/
def viewVal (p : Projections) : Val :=
  .obj [("Subscription.List", subListVal p.subList),
        ("Assignment.Tracker", trackerVal p.tracker),
        ("Emails.To.Send", emailsVal p.emails)]

/-- One step of the path walk (`state[key] !== undefined`): own properties of
objects, canonical numeric indices of arrays; anything else is absent. -/
def lookupVal (v : Val) (key : String) : Option Val :=
  match v with
  | .obj fields => lookupA key fields
  | .arr items =>
    match key.toNat? with
    | some i => if key = toString i then items[i]? else none
    | none => none
  | _ => none

/-- The recursive path walk of `query`; `none` is the absent sentinel (`null`
in the source). -/
def walkVal (v : Val) : List String → Option Val
  | [] => some v
  | k :: ks =>
    match lookupVal v k with
    | some c => walkVal c ks
    | none => none

/-- `core.query(path)`. -/
def query (s : CoreState) (path : List String) : Option Val :=
  walkVal (viewVal s.proj) path

/-- Presence of a full path in a value tree: every step resolves. -/
def presentB (v : Val) : List String → Bool
  | [] => true
  | k :: ks =>
    match lookupVal v k with
    | some c => presentB c ks
    | none => false

/-- Recovery driver: `history.forEach(core.reduce)` (no trigger, no
produce/consume; nothing clears snapshots or dirty markers afterwards). -/
def recover (history : List Event) (s : CoreState) : CoreState :=
  history.foldl (fun st e => reduce e st) s

/-- Inputs of a core session, for the determinism contract. -/
inductive CoreInput where
  | produceIn (c : Command)
  | consumeIn (e : Event)
deriving DecidableEq

/-- Feed an ordered sequence of produce/consume inputs through the core, each
from a fresh call stack (same fuel). -/
def runSeq (fuel : Nat) : CoreState → List CoreInput → Except CoreErr CoreState
  | s, [] => .ok s
  | s, i :: rest =>
    match (match i with
           | .produceIn c => (produce fuel s c).map Prod.fst
           | .consumeIn e => consume fuel s e) with
    | .error err => .error err
    | .ok s' => runSeq fuel s' rest

/-- One persisted LSS row (partitionId and metadata carry no information the
claims touch: core events have no partitionId field, and appendTime is a wall
clock stamp). -/
structure LssRecord where
  orderId : Int
  event : Event
deriving DecidableEq

/-- Writer-side LSS state: the rows plus the exclusive orderId counter. -/
structure LssState where
  records : List LssRecord
  currentOrderId : Int
deriving DecidableEq

/-- `SELECT COALESCE(MAX(lss_order_id), 0)`. -/
def maxPersistedOrderId : List LssRecord → Int
  | [] => 0
  | r :: rest => rest.foldl (fun a x => max a x.orderId) r.orderId

/-- Writer startup: counter initialized to the max persisted orderId. -/
def lssInit (rs : List LssRecord) : LssState := ⟨rs, maxPersistedOrderId rs⟩

/-- `events.map(... ++currentOrderId ...)`: assign consecutive ids in supply
order; returns the advanced counter and the new rows. -/
def assignIds (cur : Int) : List Event → Int × List LssRecord
  | [] => (cur, [])
  | e :: es =>
    let step := assignIds (cur + 1) es
    (step.1, ⟨cur + 1, e⟩ :: step.2)

/-- The row-building and insertion of `physicalAppend`, ignoring the
zero-tuple failure case. -/
def appendRecords (st : LssState) (events : List Event) : LssState :=
  let step := assignIds st.currentOrderId events
  ⟨st.records ++ step.2, step.1⟩

/-- Storage-level failure of an append. -/
inductive StorageErr
  | malformedInsert
deriving DecidableEq

/-- `physicalAppend(events)`: with no events the generated
`INSERT ... VALUES` clause has zero tuples and the database rejects the
statement; otherwise the rows are inserted atomically. -/
def physicalAppend (st : LssState) (events : List Event) :
    Except StorageErr LssState :=
  match events with
  | [] => .error .malformedInsert
  | _ => .ok (appendRecords st events)

/-- A sequence of successful appends. -/
def runAppends (st : LssState) (batches : List (List Event)) : LssState :=
  batches.foldl appendRecords st

/-- Expected orderId run of one append call: consecutive integers from
`start`. -/
def consecutiveFrom (start : Int) : Nat → List Int
  | 0 => []
  | n + 1 => start :: consecutiveFrom (start + 1) n

/-- Counter upper-bounds every persisted row (the writer invariant). -/
def lssInv (st : LssState) : Prop :=
  ∀ r ∈ st.records, r.orderId ≤ st.currentOrderId

/-- Combined system state owned by the coordinator. -/
structure SysState where
  core : CoreState
  lss : LssState
deriving DecidableEq

/-- Observable outcome of one coordinator job. -/
structure JobResult where
  sys : SysState
  rolledBack : Bool
  appendCalled : Option (List Event)
  contCalled : Option (List Event)
  fatal : Bool
deriving DecidableEq

/-- One job of `withSingleWriterMutex`'s drain loop: run the critical section;
on exception roll back (continuation NOT invoked, nothing appended); otherwise
commit and call `physicalAppend` with the buffer (no empty-buffer check in the
source); on append failure the process exits (fatal); on success the
continuation receives the transaction. -/
def runJob (sys : SysState) (criticalSection : CoreState → Except Unit CoreState) :
    JobResult :=
  match criticalSection sys.core with
  | .error _ =>
      { sys := { sys with core := rollback sys.core }
        rolledBack := true, appendCalled := none, contCalled := none, fatal := false }
  | .ok c1 =>
      let tx := (commit c1).1
      let c2 := (commit c1).2
      match physicalAppend sys.lss tx with
      | .error _ =>
          { sys := { core := c2, lss := sys.lss }
            rolledBack := false, appendCalled := some tx, contCalled := none
            fatal := true }
      | .ok lss' =>
          { sys := { core := c2, lss := lss' }
            rolledBack := false, appendCalled := some tx, contCalled := some tx
            fatal := false }

/-- The core after replaying a one-event log, as the program does on startup. -/
def recoveredS0 : CoreState :=
  recover [.subscriptionCreated "sub-1" "p" "u"] initCore

/-- A critical section that throws immediately. -/
def throwingJob : CoreState → Except Unit CoreState := fun _ => .error ()

/-- A critical section that succeeds without producing or consuming anything,
so its commit returns an empty transaction buffer. -/
def emptyJob : CoreState → Except Unit CoreState := fun c => .ok c

/-- The first committed state of the S1 scenario (create subscription). -/
def goldCmd : Command := .subscriptionCreate "gold" "a@b"

/-- Core state after the first `Subscription.Create` of the S1 scenario
(spelled out; `subscription_create_scenario` proves it is the state `produce`
actually returns). -/
def s1C : CoreState :=
  { proj := { subCreate := { nextId := 2 }
              subList := [("sub-1", { plan := "gold", createdBy := "a@b", members := [] })]
              tracker := []
              emails := { nextId := 1, list := [] } }
    snaps := { subCreate := some { nextId := 1 }, subList := some []
               tracker := none, emails := none }
    dirty := DirtySet.empty
    tx := [.subscriptionCreated "sub-1" "gold" "a@b"] }

/-- Core state after committing the first create. -/
def s2C : CoreState := (commit s1C).2

/-- Events returned by one `produce` call (none on failure). -/
def producedEvents (fuel : Nat) (s : CoreState) (cmd : Command) : Option (List Event) :=
  (produce fuel s cmd).toOption.map Prod.snd

/-- A core whose `Emails.To.Send` projection holds one notification at its
ninth retry attempt (concrete instance for the retry-cap scenario S6). -/
def emailRetryState : CoreState :=
  { proj := { subCreate := { nextId := 1 }, subList := [], tracker := []
              emails := { nextId := 8, list := [{ text := "t", notificationId := 7, attempt := 9 }] } }
    snaps := Snapshots.empty, dirty := DirtySet.empty, tx := [] }

end SWDemo

namespace SWDemo

theorem walkVal_eq_none_iff (path : List String) : ∀ v : Val,
    walkVal v path = none ↔ ∃ n, presentB v (path.take n) = false := by
  induction path with
  | nil =>
    intro v
    constructor
    · intro h; exact absurd h (by simp [walkVal])
    · rintro ⟨n, hn⟩; simp [presentB] at hn
  | cons k ks ih =>
    intro v
    cases h : lookupVal v k with
    | none =>
      constructor
      · intro _; exact ⟨1, by simp [presentB, h]⟩
      · intro _; simp [walkVal, h]
    | some c =>
      have htail := ih c
      constructor
      · intro hw
        have hc : walkVal c ks = none := by simpa [walkVal, h] using hw
        obtain ⟨n, hn⟩ := htail.mp hc
        exact ⟨n + 1, by simpa [presentB, h] using hn⟩
      · rintro ⟨n, hn⟩
        cases n with
        | zero => simp [presentB] at hn
        | succ n =>
          have hc : presentB c (ks.take n) = false := by
            simpa [presentB, h] using hn
          simp [walkVal, h, htail.mpr ⟨n, hc⟩]

/-- C10: `query(path)` returns the absent sentinel exactly when some prefix of
the path fails to resolve in the ViewState projection tree; the sentinel
(`none`, i.e. `null` in the source) is distinct from an empty container.
`query` is a pure function of the state by construction. -/
theorem query_absent_iff_prefix_missing (s : CoreState) (path : List String) :
    (query s path = none ↔ ∃ n, presentB (viewVal s.proj) (path.take n) = false) ∧
    (none : Option Val) ≠ some (.obj []) ∧ (none : Option Val) ≠ some (.arr []) :=
  ⟨walkVal_eq_none_iff path (viewVal s.proj), by simp, by simp⟩

/-- C2: the functional core is deterministic: feeding the same ordered
produce/consume inputs to the same initial core (with the same recursion
budget) yields the same outcome, in particular identical emitted event buffers
and identical projections. -/
theorem core_deterministic (fuel : Nat) (s : CoreState) (inputs : List CoreInput)
    (r₁ r₂ : CoreState)
    (h₁ : runSeq fuel s inputs = .ok r₁) (h₂ : runSeq fuel s inputs = .ok r₂) :
    r₁ = r₂ ∧ r₁.tx = r₂.tx ∧ r₁.proj = r₂.proj := by
  have h : Except.ok (ε := CoreErr) r₁ = .ok r₂ := h₁.symm.trans h₂
  have h' : r₁ = r₂ := by injection h
  exact ⟨h', by rw [h'], by rw [h']⟩

/-- Witness for C2 at a concrete input: consuming one external event. -/
theorem core_deterministic_witness :
    (⟨initProjections, Snapshots.empty, DirtySet.empty, [Event.other "E"]⟩ : CoreState) =
      ⟨initProjections, Snapshots.empty, DirtySet.empty, [Event.other "E"]⟩ ∧
    (⟨initProjections, Snapshots.empty, DirtySet.empty, [Event.other "E"]⟩ : CoreState).tx =
      (⟨initProjections, Snapshots.empty, DirtySet.empty, [Event.other "E"]⟩ : CoreState).tx ∧
    (⟨initProjections, Snapshots.empty, DirtySet.empty, [Event.other "E"]⟩ : CoreState).proj =
      (⟨initProjections, Snapshots.empty, DirtySet.empty, [Event.other "E"]⟩ : CoreState).proj :=
  core_deterministic 1 initCore [.consumeIn (.other "E")] _ _ rfl rfl

/-- C6: the dirty-marking of `reduce` is unconditional in the source (the
assignment sits outside the `if (f)` guard), so on a `Subscription.Created`
event the `Assignment.Tracker` and `Emails.To.Send` ViewStates are marked
dirty even though neither has a reducer entry for that type. -/
theorem reduce_marks_all_views_dirty_bug :
    trackerStep (.subscriptionCreated "sub-1" "gold" "a@b") = none ∧
    emailsStep (.subscriptionCreated "sub-1" "gold" "a@b") = none ∧
    (reduce (.subscriptionCreated "sub-1" "gold" "a@b") initCore).dirty = DirtySet.all ∧
    DirtySet.all.tracker = true ∧ DirtySet.all.emails = true :=
  ⟨rfl, rfl, rfl, rfl, rfl⟩

/-- C9 (scenario S1): creating a subscription from the initial state commits
exactly one `Subscription.Created` event for `sub-1`, the query of
`["Subscription.List", "sub-1"]` returns the expected object, and a second
create yields `sub-2`. -/
theorem subscription_create_scenario :
    (produce 5 initCore goldCmd).toOption =
      some (s1C, [.subscriptionCreated "sub-1" "gold" "a@b"]) ∧
    (commit s1C).1 = [.subscriptionCreated "sub-1" "gold" "a@b"] ∧
    query s2C ["Subscription.List", "sub-1"] =
      some (.obj [("plan", .str "gold"), ("createdBy", .str "a@b"), ("members", .arr [])]) ∧
    producedEvents 5 s2C goldCmd =
      some [.subscriptionCreated "sub-2" "gold" "a@b"] :=
  ⟨by decide, rfl, rfl, by decide⟩

end SWDemo

namespace SWDemo

theorem mem_setA {α : Type} (k : String) (v : α) :
    ∀ l : List (String × α), (k, v) ∈ setA k v l := by
  intro l
  induction l with
  | nil => simp [setA]
  | cons p rest ih =>
    obtain ⟨k', v'⟩ := p
    by_cases h : k' = k
    · simp [setA, h]
    · simp [setA, h, ih]

theorem pendingPairs_mem (subId m : String) (t : Tracker) :
    ∀ l : List (String × Tracker), (subId, t) ∈ l → m ∈ t.pending →
      (subId, m) ∈ pendingPairs l := by
  intro l
  induction l with
  | nil => intro h _; simp at h
  | cons p rest ih =>
    obtain ⟨k, tr⟩ := p
    intro hl hm
    simp only [pendingPairs]
    rcases List.mem_cons.mp hl with h | h
    · injection h with h1 h2
      subst h1; subst h2
      exact List.mem_append_left _ (List.mem_map_of_mem _ hm)
    · exact List.mem_append_right _ (ih h hm)

theorem pendingPairs_eq_nil : ∀ l : List (String × Tracker),
    (∀ p ∈ l, p.2.pending = []) → pendingPairs l = [] := by
  intro l
  induction l with
  | nil => intro _; rfl
  | cons p rest ih =>
    intro h
    obtain ⟨k, t⟩ := p
    have ht : t.pending = [] := h (k, t) (List.mem_cons_self _ _)
    simp [pendingPairs, ht, ih (fun q hq => h q (List.mem_cons_of_mem _ hq))]

/-- If every trigger re-entry immediately exhausts, a produce of
`Subscription.Assign.Members` with a nonempty member set exhausts too: the
reduced tracker entry has nonempty `pending`, so the dirty tracker view makes
the state machine produce again. -/
theorem produceStep_assign_noFuel
    (prod : CoreState → Command → Except CoreErr (CoreState × List Event))
    (s : CoreState) (subId : String) (members : List String)
    (hprod : ∀ s' sub' m', prod s' (.subscriptionAssignMembers sub' [m']) = .error .noFuel)
    (hne : jsSetOf members ≠ []) :
    produceStep prod s (.subscriptionAssignMembers subId members) = .error .noFuel := by
  obtain ⟨m, ms, hms⟩ := List.exists_cons_of_ne_nil hne
  have hmem : (subId, m) ∈ pendingPairs
      (setA subId { pending := jsSetOf members, completed := [], failed := [] }
        s.proj.tracker) :=
    pendingPairs_mem subId m _ _ (mem_setA _ _ _)
      (by rw [hms]; exact List.mem_cons_self _ _)
  obtain ⟨p, ps, hpp⟩ := List.exists_cons_of_ne_nil (List.ne_nil_of_mem hmem)
  obtain ⟨pa, pb⟩ := p
  simp only [produceStep, mapCmd, List.foldl_cons, List.foldl_nil, triggerWith,
    reduce, reduceProj, reduceSnaps, subListStep, trackerStep, emailsStep,
    subCreateStep, DirtySet.all]
  simp only [hpp, runTriggerLoop, hprod]
  simp

/-- Any fuel is exhausted by producing a singleton
`Subscription.Assign.Members`: each trigger pass finds the member pending
again and re-produces the same command. -/
theorem assign_singleton_noFuel :
    ∀ (n : Nat) (s : CoreState) (subId m : String),
      produce n s (.subscriptionAssignMembers subId [m]) = .error .noFuel := by
  intro n
  induction n with
  | zero => intro s subId m; rfl
  | succ n ih =>
    intro s subId m
    have h : produce (n + 1) = produceStep (produce n) := rfl
    rw [h]
    exact produceStep_assign_noFuel (produce n) s subId [m]
      (fun s' a b => ih s' a b) (by simp [jsSetOf])

/-- C7 (code bug, scenario S3): producing
`Subscription.Assign.Members {subscriptionId: "sub-1", members: ["m1","m2"]}`
from the initial state never terminates: for every recursion budget the
trigger fixpoint runs out of fuel (in the source: unbounded recursion until
stack overflow), because each nested produce resets the tracker's `pending`
to a nonempty set that triggers another produce. -/
theorem assign_members_trigger_diverges (fuel : Nat) :
    produce fuel initCore (.subscriptionAssignMembers "sub-1" ["m1", "m2"]) =
      .error .noFuel := by
  cases fuel with
  | zero => rfl
  | succ n =>
    have h : produce (n + 1) = produceStep (produce n) := rfl
    rw [h]
    exact produceStep_assign_noFuel (produce n) initCore "sub-1" ["m1", "m2"]
      (fun s' a b => assign_singleton_noFuel n s' a b) (by decide)

end SWDemo

namespace SWDemo

theorem emailFailedList_absent (nid : Nat) :
    ∀ l : List EmailEntry, (∀ en ∈ l, en.notificationId = nid → en.attempt = 9) →
      ∀ en ∈ emailFailedList nid l, en.notificationId ≠ nid := by
  intro l
  induction l with
  | nil => intro _ en hen; simp [emailFailedList] at hen
  | cons x xs ih =>
    intro h en hen
    simp only [emailFailedList] at hen
    rcases List.mem_append.mp hen with h1 | h1
    · by_cases hx : x.notificationId ≠ nid
      · rw [if_pos hx] at h1
        have h2 := List.mem_singleton.mp h1
        subst h2; exact hx
      · push_neg at hx
        have h9 : x.attempt = 9 := h x (List.mem_cons_self _ _) hx
        have hne : ¬ (x.notificationId ≠ nid) := by simp [hx]
        rw [if_neg hne, h9] at h1
        simp at h1
    · exact ih (fun q hq => h q (List.mem_cons_of_mem _ hq)) en h1

theorem emailFailedList_keep (nid : Nat) :
    ∀ l : List EmailEntry, ∀ en ∈ l, en.notificationId = nid → en.attempt < 9 →
      { en with attempt := en.attempt + 1 } ∈ emailFailedList nid l := by
  intro l
  induction l with
  | nil => intro en hen; simp at hen
  | cons x xs ih =>
    intro en hen hid hlt
    simp only [emailFailedList]
    rcases List.mem_cons.mp hen with h1 | h1
    · subst h1
      have hcond : ¬ en.notificationId ≠ nid := by simpa using hid
      have hltten : en.attempt + 1 < 10 := by omega
      refine List.mem_append_left _ ?_
      simp [hcond, hid, hltten]
    · exact List.mem_append_right _ (ih en h1 hid hlt)

/-- Consuming `Email.Failed` with every tracker entry quiescent (no pending
member) terminates in one trigger pass and rewrites only the email list. -/
theorem consume_emailFailed_ok (s : CoreState) (nid fuel : Nat)
    (hq : ∀ p ∈ s.proj.tracker, p.2.pending = []) :
    consume fuel s (.emailFailed nid) = .ok
      { proj := { s.proj with
                  emails := { nextId := s.proj.emails.nextId
                              list := emailFailedList nid s.proj.emails.list } }
        snaps := reduceSnaps (.emailFailed nid) s.proj s.snaps
        dirty := DirtySet.empty
        tx := s.tx ++ [.emailFailed nid] } := by
  have hpp : pendingPairs s.proj.tracker = [] := pendingPairs_eq_nil _ hq
  simp only [consume, triggerWith, reduce, reduceProj, subListStep, trackerStep,
    emailsStep, subCreateStep, DirtySet.all]
  simp [hpp, runTriggerLoop]

/-- C8: on consuming `Email.Failed` for a notification, an entry at attempt 9
is dropped (the tenth attempt), and an entry below attempt 9 stays with its
counter incremented; stated with quiescent trackers so the post-consume
trigger pass terminates. -/
theorem email_retry_cap (s : CoreState) (nid fuel : Nat)
    (hq : ∀ p ∈ s.proj.tracker, p.2.pending = []) :
    ∃ s', consume fuel s (.emailFailed nid) = .ok s' ∧
      s'.proj.emails.list = emailFailedList nid s.proj.emails.list ∧
      ((∀ en ∈ s.proj.emails.list, en.notificationId = nid → en.attempt = 9) →
        ∀ en ∈ s'.proj.emails.list, en.notificationId ≠ nid) ∧
      (∀ en ∈ s.proj.emails.list, en.notificationId = nid → en.attempt < 9 →
        { en with attempt := en.attempt + 1 } ∈ s'.proj.emails.list) := by
  refine ⟨_, consume_emailFailed_ok s nid fuel hq, rfl, ?_, ?_⟩
  · intro h
    exact emailFailedList_absent nid s.proj.emails.list h
  · intro en hen hid hlt
    exact emailFailedList_keep nid s.proj.emails.list en hen hid hlt

/-- Witness for C8: the notification at attempt 9 disappears. -/
theorem email_retry_cap_witness :
    ∃ s', consume 1 emailRetryState (.emailFailed 7) = .ok s' ∧
      s'.proj.emails.list = emailFailedList 7 emailRetryState.proj.emails.list ∧
      ((∀ en ∈ emailRetryState.proj.emails.list, en.notificationId = 7 → en.attempt = 9) →
        ∀ en ∈ s'.proj.emails.list, en.notificationId ≠ 7) ∧
      (∀ en ∈ emailRetryState.proj.emails.list, en.notificationId = 7 → en.attempt < 9 →
        { en with attempt := en.attempt + 1 } ∈ s'.proj.emails.list) :=
  email_retry_cap emailRetryState 7 1 (by simp [emailRetryState])

end SWDemo

namespace SWDemo

theorem recover_proj : ∀ (h : List Event) (s : CoreState),
    (recover h s).proj = h.foldl (fun p e => reduceProj e p) s.proj := by
  intro h
  induction h with
  | nil => intro s; rfl
  | cons e t ih => intro s; exact ih (reduce e s)

theorem recover_tx : ∀ (h : List Event) (s : CoreState),
    (recover h s).tx = s.tx := by
  intro h
  induction h with
  | nil => intro s; rfl
  | cons e t ih => intro s; exact ih (reduce e s)

theorem recover_dirty_aux : ∀ (h : List Event) (s : CoreState),
    s.dirty = DirtySet.all → (recover h s).dirty = DirtySet.all := by
  intro h
  induction h with
  | nil => intro s hs; exact hs
  | cons e t ih => intro s _; exact ih (reduce e s) rfl

/-- C3 amended: recovery is a plain fold of `reduce` over the log — no state
machine trigger and no produce/consume runs (by construction of the recovery
driver), the transaction buffer stays empty, and the projections equal the
deterministic fold of the log; however the dirty markers accumulated during a
nonempty replay are NOT discarded: they stay set (all three ViewStates, since
`reduce` marks unconditionally) and are consumed by the first post-recovery
trigger pass. -/
theorem recovery_fold_amended (h : List Event) (hne : h ≠ []) :
    (recover h initCore).proj = h.foldl (fun p e => reduceProj e p) initCore.proj ∧
    (recover h initCore).tx = [] ∧
    (recover h initCore).dirty = DirtySet.all := by
  refine ⟨recover_proj h initCore, recover_tx h initCore, ?_⟩
  cases h with
  | nil => exact absurd rfl hne
  | cons e t => exact recover_dirty_aux t (reduce e initCore) rfl

/-- Witness for the amended C3 at a one-event log. -/
theorem recovery_fold_amended_witness :
    (recover [Event.other "LSS.Initialized"] initCore).proj =
      [Event.other "LSS.Initialized"].foldl (fun p e => reduceProj e p) initCore.proj ∧
    (recover [Event.other "LSS.Initialized"] initCore).tx = [] ∧
    (recover [Event.other "LSS.Initialized"] initCore).dirty = DirtySet.all :=
  recovery_fold_amended [Event.other "LSS.Initialized"] (by decide)

/-- Counterexample to C3 as stated: after recovering a one-event log the
dirty-marker set is not empty — nothing in the source discards the markers at
the end of recovery. -/
theorem recovery_dirty_markers_not_discarded :
    (recover [.subscriptionCreated "sub-1" "p" "u"] initCore).dirty ≠ DirtySet.empty ∧
    (recover [.subscriptionCreated "sub-1" "p" "u"] initCore).dirty = DirtySet.all :=
  ⟨by decide, by decide⟩

/-- C1 (code bug): recovery replays `Subscription.Created sub-1` through
`reduce`, which populates the pre-change snapshot map with the PRE-recovery
(initial) values, and nothing clears that map before the first job.  A first
job whose critical section throws is rolled back (continuation not invoked,
nothing appended), but the rollback restores `Subscription.List` to the
pre-recovery empty object instead of its pre-transaction value containing
`sub-1`. -/
theorem coordinator_rollback_after_recovery_restores_prerecovery :
    recoveredS0.proj.subList =
      [("sub-1", { plan := "p", createdBy := "u", members := [] })] ∧
    (runJob ⟨recoveredS0, lssInit [⟨1, .subscriptionCreated "sub-1" "p" "u"⟩]⟩
        throwingJob).rolledBack = true ∧
    (runJob ⟨recoveredS0, lssInit [⟨1, .subscriptionCreated "sub-1" "p" "u"⟩]⟩
        throwingJob).contCalled = none ∧
    (runJob ⟨recoveredS0, lssInit [⟨1, .subscriptionCreated "sub-1" "p" "u"⟩]⟩
        throwingJob).appendCalled = none ∧
    (runJob ⟨recoveredS0, lssInit [⟨1, .subscriptionCreated "sub-1" "p" "u"⟩]⟩
        throwingJob).sys.core.tx = [] ∧
    (runJob ⟨recoveredS0, lssInit [⟨1, .subscriptionCreated "sub-1" "p" "u"⟩]⟩
        throwingJob).sys.core.proj.subList = [] := by
  refine ⟨?_, ?_, ?_, ?_, ?_, ?_⟩ <;> decide

theorem assignIds_fst : ∀ (evs : List Event) (cur : Int),
    (assignIds cur evs).1 = cur + evs.length := by
  intro evs
  induction evs with
  | nil => intro cur; simp [assignIds]
  | cons e es ih =>
    intro cur
    simp only [assignIds, ih (cur + 1), List.length_cons]
    omega

theorem assignIds_ids : ∀ (evs : List Event) (cur : Int),
    ((assignIds cur evs).2).map (fun r => r.orderId) =
      consecutiveFrom (cur + 1) evs.length := by
  intro evs
  induction evs with
  | nil => intro cur; rfl
  | cons e es ih =>
    intro cur
    simp only [assignIds, List.length_cons, List.map_cons, consecutiveFrom]
    rw [ih (cur + 1)]

theorem assignIds_lb : ∀ (evs : List Event) (cur : Int),
    ∀ r ∈ (assignIds cur evs).2, cur < r.orderId := by
  intro evs
  induction evs with
  | nil => intro cur r hr; simp [assignIds] at hr
  | cons e es ih =>
    intro cur r hr
    simp only [assignIds] at hr
    rcases List.mem_cons.mp hr with h | h
    · subst h; show cur < cur + 1; omega
    · have := ih (cur + 1) r h; omega

theorem assignIds_ub : ∀ (evs : List Event) (cur : Int),
    ∀ r ∈ (assignIds cur evs).2, r.orderId ≤ cur + evs.length := by
  intro evs
  induction evs with
  | nil => intro cur r hr; simp [assignIds] at hr
  | cons e es ih =>
    intro cur r hr
    simp only [assignIds, List.length_cons] at hr ⊢
    rcases List.mem_cons.mp hr with h | h
    · subst h; show (cur + 1 : Int) ≤ _; omega
    · have := ih (cur + 1) r h; omega

theorem foldl_max_init : ∀ (l : List LssRecord) (a : Int),
    a ≤ l.foldl (fun acc x => max acc x.orderId) a := by
  intro l
  induction l with
  | nil => intro a; simp
  | cons x xs ih =>
    intro a
    exact le_trans (le_max_left a x.orderId) (ih (max a x.orderId))

theorem foldl_max_mem : ∀ (l : List LssRecord) (a : Int) (r : LssRecord), r ∈ l →
    r.orderId ≤ l.foldl (fun acc x => max acc x.orderId) a := by
  intro l
  induction l with
  | nil => intro a r hr; simp at hr
  | cons x xs ih =>
    intro a r hr
    rcases List.mem_cons.mp hr with h | h
    · subst h
      exact le_trans (le_max_right a r.orderId) (foldl_max_init xs _)
    · exact ih _ r h

theorem le_maxPersistedOrderId : ∀ (rs : List LssRecord), ∀ r ∈ rs,
    r.orderId ≤ maxPersistedOrderId rs := by
  intro rs r hr
  cases rs with
  | nil => simp at hr
  | cons x xs =>
    simp only [maxPersistedOrderId]
    rcases List.mem_cons.mp hr with h | h
    · subst h; exact foldl_max_init xs r.orderId
    · exact foldl_max_mem xs x.orderId r h

theorem lssInv_init (rs : List LssRecord) : lssInv (lssInit rs) :=
  fun r hr => le_maxPersistedOrderId rs r hr

theorem lssInv_append (st : LssState) (evs : List Event) (h : lssInv st) :
    lssInv (appendRecords st evs) := by
  intro r hr
  simp only [appendRecords] at hr ⊢
  rw [assignIds_fst]
  rcases List.mem_append.mp hr with h1 | h1
  · have := h r h1; omega
  · have := assignIds_ub evs st.currentOrderId r h1; omega

theorem lssInv_run : ∀ (batches : List (List Event)) (st : LssState),
    lssInv st → lssInv (runAppends st batches) := by
  intro batches
  induction batches with
  | nil => intro st h; exact h
  | cons b bs ih => intro st h; exact ih _ (lssInv_append st b h)

/-- C4: the writer's counter starts at the max persisted orderId (0 for an
empty store, by definition of the max), every `physicalAppend` call from any
reachable writer state assigns consecutive orderIds starting right above the
counter, each new orderId is strictly above every previously persisted or
appended one, and the counter advances monotonically. -/
theorem physicalAppend_orderIds_consecutive_monotone
    (rs : List LssRecord) (prev : List (List Event)) (evs : List Event) :
    (lssInit rs).currentOrderId = maxPersistedOrderId rs ∧
    ((assignIds (runAppends (lssInit rs) prev).currentOrderId evs).2.map
        (fun r => r.orderId) =
      consecutiveFrom ((runAppends (lssInit rs) prev).currentOrderId + 1)
        evs.length) ∧
    (∀ r ∈ (runAppends (lssInit rs) prev).records,
      ∀ nr ∈ (assignIds (runAppends (lssInit rs) prev).currentOrderId evs).2,
        r.orderId < nr.orderId) ∧
    (runAppends (lssInit rs) prev).currentOrderId ≤
      (appendRecords (runAppends (lssInit rs) prev) evs).currentOrderId := by
  have hinv : lssInv (runAppends (lssInit rs) prev) :=
    lssInv_run prev _ (lssInv_init rs)
  refine ⟨rfl, assignIds_ids evs _, ?_, ?_⟩
  · intro r hr nr hnr
    have h1 := hinv r hr
    have h2 := assignIds_lb evs _ nr hnr
    omega
  · simp only [appendRecords]
    rw [assignIds_fst]
    omega

/-- C5 amended: the coordinator does NOT skip the append for an empty commit:
it calls `physicalAppend` with the empty transaction, the generated zero-tuple
INSERT fails, and the failure is treated as fatal — the process exits without
invoking the continuation (and without a rollback). -/
theorem empty_commit_append_fatal_amended (sys : SysState)
    (cs : CoreState → Except Unit CoreState) (c1 : CoreState)
    (hcs : cs sys.core = .ok c1) (hempty : c1.tx = []) :
    (runJob sys cs).appendCalled = some [] ∧
    (runJob sys cs).fatal = true ∧
    (runJob sys cs).contCalled = none ∧
    (runJob sys cs).rolledBack = false := by
  simp [runJob, hcs, commit, hempty, physicalAppend]

/-- Witness for the amended C5: a critical section that changes nothing. -/
theorem empty_commit_append_fatal_amended_witness :
    (runJob ⟨initCore, lssInit []⟩ emptyJob).appendCalled = some [] ∧
    (runJob ⟨initCore, lssInit []⟩ emptyJob).fatal = true ∧
    (runJob ⟨initCore, lssInit []⟩ emptyJob).contCalled = none ∧
    (runJob ⟨initCore, lssInit []⟩ emptyJob).rolledBack = false :=
  empty_commit_append_fatal_amended ⟨initCore, lssInit []⟩ emptyJob initCore rfl rfl

/-- Counterexample to C5 as stated: for a job whose critical section succeeds
with an empty transaction buffer, `physicalAppend` IS invoked (with `[]`), the
continuation is NOT invoked, and the run is fatal (process termination). -/
theorem empty_commit_append_not_skipped :
    (runJob ⟨initCore, lssInit []⟩ emptyJob).appendCalled = some [] ∧
    (runJob ⟨initCore, lssInit []⟩ emptyJob).fatal = true ∧
    (runJob ⟨initCore, lssInit []⟩ emptyJob).contCalled = none := by
  decide

end SWDemo
